import Mathlib

/-!
Shallow embedding of `carboxyl_window` (src/src/glium_loop.rs, src/src/lib.rs).

The repository turns a polling windowing backend (glutin/glium) into reactive
endpoints (carboxyl sinks, streams, cells) driven by a drift-corrected
fixed-tick scheduler.  The embedding below translates:

* the raw platform event vocabulary consumed by `GliumLoop::dispatch`
  (external glutin types, modelled only in the shape the dispatcher consumes);
* the `Button` enum of `glium_loop.rs`;
* `ButtonEvent` / `ButtonState` (declared in the crate's `button` module, whose
  file is not under src/; modelled from the spec's data model);
* the sink state of a `GliumLoop`: each carboxyl sink is modelled by its
  emission history, a list that `send` appends to — per the documented
  contract of the external reactive library, every send is visible in order
  to every derived stream/cell view;
* carboxyl streams and cells as handles recording the emission count at the
  moment `stream()` / `hold` was called: a stream observer attached after an
  emission never sees it, and a cell reads the last post-creation emission,
  or its initial value when there is none;
* `GliumLoop::dispatch`, and the due branch of `GliumLoop::start` as a step
  function parameterised by the current clock reading and the batch of events
  returned by `poll_events()`.  Rust's `u64` arithmetic in `start` cannot
  overflow at the points used (the subtraction is guarded by `time >=
  next_tick`, and `next_tick + delta <= time`), so `Nat` models it exactly;
  the one partial operation, `%` with a zero divisor, panics in Rust and is
  modelled by `Option`.
-/

namespace CarboxylWindow

/-- Virtual key codes of the external windowing library (glutin).  The exact
set of keys is irrelevant to the dispatcher; the `A` key is named because the
spec's scenarios use it, all other codes are collapsed into `other`. -/
inductive VirtualKeyCode : Type
  | A
  | other (code : Nat)
deriving DecidableEq

/-- Mouse buttons of the external windowing library. -/
inductive MouseButton : Type
  | left
  | right
  | other (code : Nat)
deriving DecidableEq

/-- Raw press/release state of the external windowing library. -/
inductive ElementState : Type
  | Pressed
  | Released
deriving DecidableEq

/-- Raw platform events, in the shape `GliumLoop::dispatch` consumes them:
`KeyboardInput(state, scancode, Option<VirtualKeyCode>)`, `MouseInput(state,
button)`, `MouseWheel(i32)`, `MouseMoved((i32, i32))`, `Focused(bool)`,
`Resized(u32, u32)`, `Moved(i32, i32)`, `ReceivedCharacter(char)`, `Closed`,
and a stand-in `Other` for every further variant (all hit the `_ => ()` arm). -/
inductive Event : Type
  | KeyboardInput (state : ElementState) (scancode : Nat) (vkey : Option VirtualKeyCode)
  | MouseInput (state : ElementState) (button : MouseButton)
  | MouseWheel (delta : Int)
  | MouseMoved (pos : Int × Int)
  | Focused (b : Bool)
  | Resized (w h : Nat)
  | Moved (x y : Int)
  | ReceivedCharacter (c : Char)
  | Closed
  | Other (code : Nat)
deriving DecidableEq

/-- `Button` from src/src/glium_loop.rs: a keyboard key or a mouse button. -/
inductive Button : Type
  | Keyboard (key : VirtualKeyCode)
  | Mouse (button : MouseButton)
deriving DecidableEq

/-- Modelled from the spec: `ButtonState` lives in the crate's `button` module,
whose source file is not under src/.  The spec's data model defines it as the
enum `{Pressed, Released}` mirroring the platform's raw press/release signal. -/
inductive ButtonState : Type
  | Pressed
  | Released
deriving DecidableEq

/-- Modelled from the spec: `ButtonEvent` lives in the crate's `button` module,
whose source file is not under src/.  The spec's data model defines it as the
record `{button: Button, state: ButtonState}`. -/
structure ButtonEvent (B : Type) : Type where
  button : B
  state : ButtonState
deriving DecidableEq

/-- The emission histories of the eight sinks owned by a `GliumLoop`.  A
carboxyl `Sink` is modelled by the list of values sent on it, oldest first;
`send` appends.  Field names follow the `*_sink` fields of the struct. -/
structure SinkState : Type where
  tick : List Nat
  winpos : List (Int × Int)
  winsize : List (Nat × Nat)
  button : List (ButtonEvent Button)
  mouse_motion : List (Int × Int)
  mouse_wheel : List Int
  focus : List Bool
  char : List Char
deriving DecidableEq

/-- The sink state of a freshly constructed loop: `Sink::new()` for each
endpoint, no emissions yet. -/
def SinkState.empty : SinkState := ⟨[], [], [], [], [], [], [], []⟩

/-- `GliumLoop` of src/src/glium_loop.rs.  The `display` handle is an external
resource with no observable state of its own (its `poll_events` output enters
the model as an explicit parameter of the scheduler step), so the embedding
keeps the tick length and the sinks. -/
structure GliumLoop : Type where
  tick_length : Nat
  sinks : SinkState
deriving DecidableEq

/-- `GliumLoop::new`: stores the tick length and fresh sinks. -/
def GliumLoop.new (tick_length : Nat) : GliumLoop := ⟨tick_length, SinkState.empty⟩

/-- The local `to_button_state` helper inside `GliumLoop::dispatch`. -/
def to_button_state : ElementState → ButtonState
  | ElementState.Pressed => ButtonState.Pressed
  | ElementState.Released => ButtonState.Released

/-- `GliumLoop::dispatch`, as a function on the sink state: each arm of the
source `match` sends one value on one sink; `KeyboardInput` with no key code,
`Closed` and every unknown variant fall through to `_ => ()`. -/
def dispatch (s : SinkState) : Event → SinkState
  | Event.KeyboardInput state _ (some vkey) =>
      { s with button := s.button ++ [⟨Button.Keyboard vkey, to_button_state state⟩] }
  | Event.KeyboardInput _ _ none => s
  | Event.MouseInput state button =>
      { s with button := s.button ++ [⟨Button.Mouse button, to_button_state state⟩] }
  | Event.MouseWheel a => { s with mouse_wheel := s.mouse_wheel ++ [a] }
  | Event.MouseMoved a => { s with mouse_motion := s.mouse_motion ++ [a] }
  | Event.Focused a => { s with focus := s.focus ++ [a] }
  | Event.Resized w h => { s with winsize := s.winsize ++ [(w, h)] }
  | Event.Moved x y => { s with winpos := s.winpos ++ [(x, y)] }
  | Event.ReceivedCharacter c => { s with char := s.char ++ [c] }
  | Event.Closed => s
  | Event.Other _ => s

/-- The polling loop inside `GliumLoop::start`:
`for ev in poll_events() { if let Event::Closed = ev { break 'main }
dispatch(ev); }`.  Returns the sink state after the dispatched prefix and
whether the `break 'main` was taken. -/
def dispatchBatch : SinkState → List Event → SinkState × Bool
  | s, [] => (s, false)
  | s, e :: rest =>
    match e with
    | Event.Closed => (s, true)
    | _ => dispatchBatch (dispatch s e) rest

/-- Rust's `%` on `u64`: panics when the divisor is zero, which the embedding
records as `none`. -/
def remChecked (a b : Nat) : Option Nat :=
  if b = 0 then none else some (a % b)

/-- One pass through the body of the `'main` loop of `GliumLoop::start`.
`next_tick` is the scheduler state, `terminated` records that `break 'main`
has run.  `now` is the value `precise_time_ns()` returned at the top of the
iteration and `batch` the events `poll_events()` yielded. -/
structure TickState : Type where
  next_tick : Nat
  sinks : SinkState
  terminated : Bool
deriving DecidableEq

/-- The due branch of `GliumLoop::start` (taken when `time >= next_tick`):
`diff = time - next_tick`, `delta = diff - diff % tick_length`,
`next_tick += delta`, then the polling loop, and — unless it broke on a
`Closed` event — `tick_sink.send(delta)`.  `none` models the `%`-by-zero
panic. -/
def dueStepChecked (tick_length now : Nat) (batch : List Event)
    (st : TickState) : Option TickState :=
  let diff := now - st.next_tick
  match remChecked diff tick_length with
  | none => none
  | some r =>
    let delta := diff - r
    let nt := st.next_tick + delta
    match dispatchBatch st.sinks batch with
    | (s, true) => some ⟨nt, s, true⟩
    | (s, false) => some ⟨nt, { s with tick := s.tick ++ [delta] }, false⟩

/-- One full iteration of the `'main` loop: the due branch when
`time >= next_tick`, otherwise the sleep branch, which changes no state. -/
def loopStep (tick_length now : Nat) (batch : List Event)
    (st : TickState) : Option TickState :=
  if st.next_tick ≤ now then dueStepChecked tick_length now batch st
  else some st

/-- The scheduler state on entry to the `'main` loop of `start`: `next_tick`
is initialised to the first `precise_time_ns()` reading `t0`. -/
def GliumLoop.startState (l : GliumLoop) (t0 : Nat) : TickState :=
  ⟨t0, l.sinks, false⟩

/-- A carboxyl `Stream` handle as returned by `Sink::stream()`: it observes
exactly the emissions sent after its creation (an observer attached after an
emission never sees it), so the handle records how many emissions the sink had
when it was created. -/
structure StreamHandle (α : Type) : Type where
  createdAt : Nat
deriving DecidableEq

/-- The values a stream handle observes, given the sink's full emission
history: the emissions after its creation point, in order. -/
def StreamHandle.observations {α : Type} (h : StreamHandle α)
    (history : List α) : List α :=
  history.drop h.createdAt

/-- A carboxyl `Cell` handle as returned by `stream().hold(init)`: it holds
the most recent value emitted after its creation, or `init` when there is
none. -/
structure CellHandle (α : Type) : Type where
  init : α
  createdAt : Nat
deriving DecidableEq

/-- The current value of a cell handle, given the sink's full emission
history. -/
def CellHandle.now {α : Type} (c : CellHandle α) (history : List α) : α :=
  (history.drop c.createdAt).getLast?.getD c.init

/-- `ApplicationLoop::ticks` for `GliumLoop`: `tick_sink.stream()`. -/
def GliumLoop.ticks (l : GliumLoop) : StreamHandle Nat :=
  ⟨l.sinks.tick.length⟩

/-- `ApplicationLoop::position`: `winpos_sink.stream().hold((0, 0))`. -/
def GliumLoop.position (l : GliumLoop) : CellHandle (Int × Int) :=
  ⟨(0, 0), l.sinks.winpos.length⟩

/-- `ApplicationLoop::size`: `winsize_sink.stream().hold((0, 0))`. -/
def GliumLoop.size (l : GliumLoop) : CellHandle (Nat × Nat) :=
  ⟨(0, 0), l.sinks.winsize.length⟩

/-- `ApplicationLoop::buttons`: `button_sink.stream()`. -/
def GliumLoop.buttons (l : GliumLoop) : StreamHandle (ButtonEvent Button) :=
  ⟨l.sinks.button.length⟩

/-- `ApplicationLoop::characters`: `char_sink.stream()`. -/
def GliumLoop.characters (l : GliumLoop) : StreamHandle Char :=
  ⟨l.sinks.char.length⟩

/-- `ApplicationLoop::cursor`: `mouse_motion_sink.stream().hold((0, 0))`. -/
def GliumLoop.cursor (l : GliumLoop) : CellHandle (Int × Int) :=
  ⟨(0, 0), l.sinks.mouse_motion.length⟩

/-- `ApplicationLoop::wheel`: `mouse_wheel_sink.stream().hold(0)`. -/
def GliumLoop.wheel (l : GliumLoop) : CellHandle Int :=
  ⟨0, l.sinks.mouse_wheel.length⟩

/-- `ApplicationLoop::focus`: `focus_sink.stream().hold(true)`. -/
def GliumLoop.focus (l : GliumLoop) : CellHandle Bool :=
  ⟨true, l.sinks.focus.length⟩

/-- Classification of a single sink write: which sink receives it and the
value written. -/
inductive SinkWrite : Type
  | button (e : ButtonEvent Button)
  | wheel (d : Int)
  | cursorMotion (p : Int × Int)
  | focusState (b : Bool)
  | winSize (p : Nat × Nat)
  | winPos (p : Int × Int)
  | character (c : Char)
deriving DecidableEq

/-- Modelled from the spec: the classification table of §4.1, as a pure
function from a raw event to the single sink write it prescribes (`none` for
dropped events and for the close request, which writes no sink). -/
def classifySpec : Event → Option SinkWrite
  | Event.KeyboardInput state _ (some key) =>
      some (SinkWrite.button ⟨Button.Keyboard key, to_button_state state⟩)
  | Event.MouseInput state button =>
      some (SinkWrite.button ⟨Button.Mouse button, to_button_state state⟩)
  | Event.MouseWheel d => some (SinkWrite.wheel d)
  | Event.MouseMoved p => some (SinkWrite.cursorMotion p)
  | Event.Focused b => some (SinkWrite.focusState b)
  | Event.Resized w h => some (SinkWrite.winSize (w, h))
  | Event.Moved x y => some (SinkWrite.winPos (x, y))
  | Event.ReceivedCharacter c => some (SinkWrite.character c)
  | _ => none

/-- Apply a classified write (or nothing) to the sink state: one append on
exactly the named sink. -/
def applySinkWrite (s : SinkState) : Option SinkWrite → SinkState
  | none => s
  | some (SinkWrite.button e) => { s with button := s.button ++ [e] }
  | some (SinkWrite.wheel d) => { s with mouse_wheel := s.mouse_wheel ++ [d] }
  | some (SinkWrite.cursorMotion p) => { s with mouse_motion := s.mouse_motion ++ [p] }
  | some (SinkWrite.focusState b) => { s with focus := s.focus ++ [b] }
  | some (SinkWrite.winSize p) => { s with winsize := s.winsize ++ [p] }
  | some (SinkWrite.winPos p) => { s with winpos := s.winpos ++ [p] }
  | some (SinkWrite.character c) => { s with char := s.char ++ [c] }

/-- Total number of values ever written across all eight sinks. -/
def SinkState.totalWrites (s : SinkState) : Nat :=
  s.tick.length + s.winpos.length + s.winsize.length + s.button.length +
    s.mouse_motion.length + s.mouse_wheel.length + s.focus.length + s.char.length

/-- A value is a positive multiple of the tick length. -/
def isPosMultiple (tick_length v : Nat) : Prop := 0 < v ∧ tick_length ∣ v

instance (tick_length v : Nat) : Decidable (isPosMultiple tick_length v) := by
  unfold isPosMultiple; infer_instance

/-- Whether a raw event is a `Resized` event. -/
def isResized : Event → Bool
  | Event.Resized _ _ => true
  | _ => false

/-- The sink state after dispatching the two-event sequence of the spec's
keyboard scenario: press of the `A` key, then release of the `A` key. -/
def afterKeySequence (s : SinkState) (sc1 sc2 : Nat) : SinkState :=
  dispatch
    (dispatch s (Event.KeyboardInput ElementState.Pressed sc1 (some VirtualKeyCode.A)))
    (Event.KeyboardInput ElementState.Released sc2 (some VirtualKeyCode.A))

/-- `dispatch` never writes on the tick sink: the tick sink is only written
by the scheduler loop itself. -/
theorem dispatch_tick (s : SinkState) (e : Event) : (dispatch s e).tick = s.tick := by
  cases e with
  | KeyboardInput state scancode vkey => cases vkey <;> rfl
  | MouseInput state button => rfl
  | MouseWheel d => rfl
  | MouseMoved p => rfl
  | Focused b => rfl
  | Resized w h => rfl
  | Moved x y => rfl
  | ReceivedCharacter c => rfl
  | Closed => rfl
  | Other c => rfl

/-- `dispatch` leaves the window-size sink alone on any event other than
`Resized`. -/
theorem dispatch_winsize_of_not_resized (s : SinkState) (e : Event)
    (h : isResized e = false) : (dispatch s e).winsize = s.winsize := by
  cases e with
  | KeyboardInput state scancode vkey => cases vkey <;> rfl
  | MouseInput state button => rfl
  | MouseWheel d => rfl
  | MouseMoved p => rfl
  | Focused b => rfl
  | Resized w hh => exact absurd h (by simp [isResized])
  | Moved x y => rfl
  | ReceivedCharacter c => rfl
  | Closed => rfl
  | Other c => rfl

/-- Dispatching a whole list of events leaves the window-size sink alone when
none of them is `Resized`. -/
theorem foldl_dispatch_winsize (evs : List Event) (s : SinkState)
    (h : ∀ e ∈ evs, isResized e = false) :
    (List.foldl dispatch s evs).winsize = s.winsize := by
  induction evs generalizing s with
  | nil => rfl
  | cons e rest ih =>
    rw [List.foldl_cons, ih (dispatch s e) (fun x hx => h x (List.mem_cons_of_mem e hx)),
      dispatch_winsize_of_not_resized s e (h e (List.mem_cons_self e rest))]

/-- The polling loop steps over any non-`Closed` event by dispatching it. -/
theorem dispatchBatch_cons_ne (s : SinkState) (e : Event) (l : List Event)
    (h : e ≠ Event.Closed) :
    dispatchBatch s (e :: l) = dispatchBatch (dispatch s e) l := by
  cases e <;> first | exact absurd rfl h | rfl

/-- The polling loop breaks at the first `Closed` event: everything before it
is dispatched, nothing after it is, and the break flag is set. -/
theorem dispatchBatch_closed (pre post : List Event) (s : SinkState)
    (h : Event.Closed ∉ pre) :
    dispatchBatch s (pre ++ Event.Closed :: post) =
      (List.foldl dispatch s pre, true) := by
  induction pre generalizing s with
  | nil => rfl
  | cons e rest ih =>
    have he : e ≠ Event.Closed := fun heq => h (by rw [heq]; exact List.mem_cons_self _ _)
    have hrest : Event.Closed ∉ rest := fun hm => h (List.mem_cons_of_mem e hm)
    rw [List.cons_append, dispatchBatch_cons_ne _ _ _ he, ih _ hrest, List.foldl_cons]

/-- A batch with no `Closed` event is dispatched in full and the break flag
stays clear. -/
theorem dispatchBatch_no_closed (evs : List Event) (s : SinkState)
    (h : Event.Closed ∉ evs) :
    dispatchBatch s evs = (List.foldl dispatch s evs, false) := by
  induction evs generalizing s with
  | nil => rfl
  | cons e rest ih =>
    have he : e ≠ Event.Closed := fun heq => h (by rw [heq]; exact List.mem_cons_self _ _)
    have hrest : Event.Closed ∉ rest := fun hm => h (List.mem_cons_of_mem e hm)
    rw [dispatchBatch_cons_ne _ _ _ he, ih _ hrest, List.foldl_cons]

/-- The polling loop never writes on the tick sink. -/
theorem dispatchBatch_tick (evs : List Event) (s : SinkState) :
    (dispatchBatch s evs).1.tick = s.tick := by
  induction evs generalizing s with
  | nil => rfl
  | cons e rest ih =>
    by_cases he : e = Event.Closed
    · rw [he]; rfl
    · rw [dispatchBatch_cons_ne _ _ _ he, ih, dispatch_tick]

/-- Unfolding of the due branch with a non-zero tick length, when the polling
loop runs the whole batch without meeting a `Closed` event. -/
theorem dueStepChecked_open (tick_length now : Nat) (batch : List Event)
    (st : TickState) (s2 : SinkState) (htl : tick_length ≠ 0)
    (hb : dispatchBatch st.sinks batch = (s2, false)) :
    dueStepChecked tick_length now batch st =
      some ⟨st.next_tick + ((now - st.next_tick) - (now - st.next_tick) % tick_length),
        { s2 with tick := s2.tick ++ [(now - st.next_tick) - (now - st.next_tick) % tick_length] },
        false⟩ := by
  unfold dueStepChecked remChecked
  simp [htl, hb]

/-- Unfolding of the due branch with a non-zero tick length, when the polling
loop breaks on a `Closed` event. -/
theorem dueStepChecked_break (tick_length now : Nat) (batch : List Event)
    (st : TickState) (s2 : SinkState) (htl : tick_length ≠ 0)
    (hb : dispatchBatch st.sinks batch = (s2, true)) :
    dueStepChecked tick_length now batch st =
      some ⟨st.next_tick + ((now - st.next_tick) - (now - st.next_tick) % tick_length),
        s2, true⟩ := by
  unfold dueStepChecked remChecked
  simp [htl, hb]

/-- The due branch with tick length zero always hits the `%`-by-zero fault. -/
theorem dueStepChecked_none (now : Nat) (batch : List Event) (st : TickState) :
    dueStepChecked 0 now batch st = none := by
  unfold dueStepChecked remChecked
  simp

/-- C1 counterexample: the claim says every `delta` emitted on the tick sink
is a positive multiple of `tick_length`.  With `tick_length = 1000` and an
overshoot of `500` (so `diff % tick_length = diff`), the due branch emits
`delta = 0`, and `0` is not a positive multiple of `1000`. -/
theorem C1_counterexample :
    dueStepChecked 1000 500 [] ⟨0, SinkState.empty, false⟩ =
      some ⟨0, { SinkState.empty with tick := [0] }, false⟩ ∧
    ¬ isPosMultiple 1000 0 :=
  ⟨by decide, by decide⟩

/-- C1 (amended): with `tick_length > 0`, every iteration of the due branch of
`start` either emits nothing on the tick sink (the `Closed` break) or emits a
single `delta` that is a multiple of `tick_length` — possibly the zero
multiple, since `delta = diff - diff % tick_length` vanishes whenever the
overshoot is below `tick_length`. -/
theorem C1_delta_multiple (tick_length now : Nat) (batch : List Event)
    (st st' : TickState) (htl : 0 < tick_length)
    (h : dueStepChecked tick_length now batch st = some st') :
    st'.sinks.tick = st.sinks.tick ∨
      ∃ d, st'.sinks.tick = st.sinks.tick ++ [d] ∧ tick_length ∣ d := by
  have hne : tick_length ≠ 0 := Nat.pos_iff_ne_zero.mp htl
  rcases hdb : dispatchBatch st.sinks batch with ⟨s2, b⟩
  have hs2 : s2.tick = st.sinks.tick := by
    have h2 := dispatchBatch_tick batch st.sinks
    rw [hdb] at h2
    exact h2
  cases b with
  | true =>
    rw [dueStepChecked_break tick_length now batch st s2 hne hdb] at h
    cases h
    left
    exact hs2
  | false =>
    rw [dueStepChecked_open tick_length now batch st s2 hne hdb] at h
    cases h
    right
    refine ⟨now - st.next_tick - (now - st.next_tick) % tick_length, by rw [hs2], ?_⟩
    refine ⟨(now - st.next_tick) / tick_length, ?_⟩
    nth_rewrite 1 [← Nat.div_add_mod (now - st.next_tick) tick_length]
    exact Nat.add_sub_cancel _ _

/-- C1 witness: the amended theorem applied at `tick_length = 1000`, an
overshoot of `500` and an empty batch. -/
theorem C1_delta_multiple_witness :
    (⟨0, { SinkState.empty with tick := [0] }, false⟩ : TickState).sinks.tick =
        (⟨0, SinkState.empty, false⟩ : TickState).sinks.tick ∨
      ∃ d, (⟨0, { SinkState.empty with tick := [0] }, false⟩ : TickState).sinks.tick =
          (⟨0, SinkState.empty, false⟩ : TickState).sinks.tick ++ [d] ∧ 1000 ∣ d :=
  C1_delta_multiple 1000 500 [] ⟨0, SinkState.empty, false⟩
    ⟨0, { SinkState.empty with tick := [0] }, false⟩ (by decide) (by decide)

/-- C4: with `tick_length = 1000000` and the due branch running `3500000` ns
past `next_tick`, exactly one tick fires carrying `delta = 3000000`,
`next_tick` advances by exactly `3000000`, and the remaining `500000` ns of
overshoot persist as the distance between the new clock reading and the new
`next_tick`. -/
theorem C4_catchup (nt : Nat) (s : SinkState) (batch : List Event)
    (hb : (dispatchBatch s batch).2 = false) :
    dueStepChecked 1000000 (nt + 3500000) batch ⟨nt, s, false⟩ =
      some ⟨nt + 3000000,
        { (dispatchBatch s batch).1 with
            tick := (dispatchBatch s batch).1.tick ++ [3000000] }, false⟩ ∧
    (nt + 3500000) - (nt + 3000000) = 500000 := by
  constructor
  · unfold dueStepChecked remChecked
    rcases hdb : dispatchBatch s batch with ⟨s2, b⟩
    rw [hdb] at hb
    simp only at hb
    subst hb
    have hdiff : nt + 3500000 - nt = 3500000 := by omega
    simp only [hdiff]
    norm_num
  · omega

/-- C4 witness: the scenario run from `next_tick = 7` with an empty batch. -/
theorem C4_catchup_witness :
    dueStepChecked 1000000 (7 + 3500000) [] ⟨7, SinkState.empty, false⟩ =
      some ⟨7 + 3000000,
        { (dispatchBatch SinkState.empty []).1 with
            tick := (dispatchBatch SinkState.empty []).1.tick ++ [3000000] }, false⟩ ∧
    (7 + 3500000) - (7 + 3000000) = 500000 :=
  C4_catchup 7 SinkState.empty [] (by decide)

/-- C6: if the loop is constructed with `tick_length = 0`, then under a
monotone clock (the second reading is at least the first) the very first
iteration of `start` takes the due branch and hits the modulo-by-zero fault in
`diff % tick_length` (modelled by `none`, Rust's panic); conversely, with
`tick_length > 0` no iteration can reach the fault. -/
theorem C6_zero_tick_fault :
    (∀ (l : GliumLoop) (t0 t1 : Nat) (batch : List Event),
      l.tick_length = 0 → t0 ≤ t1 →
      loopStep l.tick_length t1 batch (l.startState t0) = none) ∧
    (∀ (tick_length now : Nat) (batch : List Event) (st : TickState),
      0 < tick_length → loopStep tick_length now batch st ≠ none) := by
  constructor
  · intro l t0 t1 batch h0 hle
    unfold loopStep
    rw [h0]
    simp [GliumLoop.startState, hle, dueStepChecked_none]
  · intro tick_length now batch st htl
    have hne : tick_length ≠ 0 := Nat.pos_iff_ne_zero.mp htl
    unfold loopStep
    by_cases hd : st.next_tick ≤ now
    · rw [if_pos hd]
      rcases hdb : dispatchBatch st.sinks batch with ⟨s2, b⟩
      cases b with
      | true => rw [dueStepChecked_break tick_length now batch st s2 hne hdb]; simp
      | false => rw [dueStepChecked_open tick_length now batch st s2 hne hdb]; simp
    · rw [if_neg hd]
      simp

/-- C6 witness: the fault at `tick_length = 0` with clock readings `2 ≤ 3`,
and the absence of the fault at `tick_length = 5`. -/
theorem C6_zero_tick_fault_witness :
    loopStep (GliumLoop.new 0).tick_length 3 [] ((GliumLoop.new 0).startState 2) = none ∧
    loopStep 5 3 [] ⟨2, SinkState.empty, false⟩ ≠ none :=
  ⟨C6_zero_tick_fault.1 (GliumLoop.new 0) 2 3 [] rfl (by decide),
   C6_zero_tick_fault.2 5 3 [] ⟨2, SinkState.empty, false⟩ (by decide)⟩

/-- C10 counterexample: the claim says a tick carrying `0` is emitted whenever
the due branch runs with an overshoot below `tick_length`.  With an overshoot
of `0` and a batch containing `Closed`, the due branch runs, `delta = 0` and
`next_tick` is unchanged, but the loop breaks and the tick sink receives
nothing. -/
theorem C10_counterexample :
    dueStepChecked 1000 5 [Event.Closed] ⟨5, SinkState.empty, false⟩ =
      some ⟨5, SinkState.empty, true⟩ ∧
    (⟨5, SinkState.empty, true⟩ : TickState).sinks.tick = [] ∧
    ([] : List Nat) ≠ [0] :=
  ⟨by decide, by decide, by decide⟩

/-- C10 (amended): whenever the due branch runs with `tick_length > 0` and an
overshoot `now - next_tick < tick_length` (an overshoot of `0` included), and
the polled batch contains no `Closed` event, then `delta = 0`, `next_tick` is
left unchanged, and a tick carrying `0` is emitted after the batch is
dispatched; in particular the first iteration of `start` does so whenever the
second clock reading is within `tick_length` of the first. -/
theorem C10_zero_delta :
    (∀ (tick_length now : Nat) (batch : List Event) (st : TickState),
      0 < tick_length → st.next_tick ≤ now → now - st.next_tick < tick_length →
      (dispatchBatch st.sinks batch).2 = false →
      dueStepChecked tick_length now batch st =
        some ⟨st.next_tick,
          { (dispatchBatch st.sinks batch).1 with
              tick := (dispatchBatch st.sinks batch).1.tick ++ [0] }, false⟩) ∧
    (∀ (l : GliumLoop) (t0 t1 : Nat) (batch : List Event),
      0 < l.tick_length → t0 ≤ t1 → t1 - t0 < l.tick_length →
      (dispatchBatch l.sinks batch).2 = false →
      loopStep l.tick_length t1 batch (l.startState t0) =
        some ⟨t0,
          { (dispatchBatch l.sinks batch).1 with
              tick := (dispatchBatch l.sinks batch).1.tick ++ [0] }, false⟩) := by
  have main : ∀ (tick_length now : Nat) (batch : List Event) (st : TickState),
      0 < tick_length → st.next_tick ≤ now → now - st.next_tick < tick_length →
      (dispatchBatch st.sinks batch).2 = false →
      dueStepChecked tick_length now batch st =
        some ⟨st.next_tick,
          { (dispatchBatch st.sinks batch).1 with
              tick := (dispatchBatch st.sinks batch).1.tick ++ [0] }, false⟩ := by
    intro tick_length now batch st htl hdue hover hb
    have hne : tick_length ≠ 0 := Nat.pos_iff_ne_zero.mp htl
    rcases hdb : dispatchBatch st.sinks batch with ⟨s2, b⟩
    rw [hdb] at hb
    simp only at hb
    subst hb
    rw [dueStepChecked_open tick_length now batch st s2 hne hdb]
    have hmod : (now - st.next_tick) % tick_length = now - st.next_tick :=
      Nat.mod_eq_of_lt hover
    rw [hmod]
    simp [hdb, Nat.sub_self]
  refine ⟨main, ?_⟩
  intro l t0 t1 batch htl hle hover hb
  have h := main l.tick_length t1 batch (l.startState t0) htl hle hover hb
  unfold loopStep
  rw [if_pos (show (l.startState t0).next_tick ≤ t1 from hle)]
  exact h

/-- C10 witness: both parts applied with `tick_length = 1000`, clock readings
`5` and `5`, and an empty batch. -/
theorem C10_zero_delta_witness :
    dueStepChecked 1000 5 [] ⟨5, SinkState.empty, false⟩ =
      some ⟨5,
        { (dispatchBatch SinkState.empty []).1 with
            tick := (dispatchBatch SinkState.empty []).1.tick ++ [0] }, false⟩ ∧
    loopStep (GliumLoop.new 1000).tick_length 5 [] ((GliumLoop.new 1000).startState 5) =
      some ⟨5,
        { (dispatchBatch (GliumLoop.new 1000).sinks []).1 with
            tick := (dispatchBatch (GliumLoop.new 1000).sinks []).1.tick ++ [0] }, false⟩ :=
  ⟨C10_zero_delta.1 1000 5 [] ⟨5, SinkState.empty, false⟩ (by decide) (by decide)
      (by decide) (by decide),
   C10_zero_delta.2 (GliumLoop.new 1000) 5 5 [] (by decide) (by decide) (by decide)
      (by decide)⟩

/-- `dispatch` agrees pointwise with the spec's classification table: each raw
event causes exactly the single sink write the table prescribes, or none. -/
theorem dispatch_matches_table (s : SinkState) (e : Event) :
    dispatch s e = applySinkWrite s (classifySpec e) := by
  cases e with
  | KeyboardInput state scancode vkey => cases vkey <;> rfl
  | MouseInput state button => rfl
  | MouseWheel d => rfl
  | MouseMoved p => rfl
  | Focused b => rfl
  | Resized w h => rfl
  | Moved x y => rfl
  | ReceivedCharacter c => rfl
  | Closed => rfl
  | Other c => rfl

/-- Applying one classified write grows the total write count by exactly
one. -/
theorem totalWrites_applySinkWrite (s : SinkState) (w : SinkWrite) :
    (applySinkWrite s (some w)).totalWrites = s.totalWrites + 1 := by
  cases w <;> simp [applySinkWrite, SinkState.totalWrites] <;> omega

/-- A stream handle created when the sink history was `H` observes exactly
the emissions made after that point. -/
theorem observations_at_length {α : Type} (H rest : List α) :
    StreamHandle.observations (⟨H.length⟩ : StreamHandle α) (H ++ rest) = rest := by
  show (H ++ rest).drop H.length = rest
  exact List.drop_left H rest

/-- A cell handle created when the sink history was `H` reads the latest
emission made after that point. -/
theorem now_at_length {α : Type} (i : α) (H rest : List α) (v : α) :
    CellHandle.now (⟨i, H.length⟩ : CellHandle α) (H ++ (rest ++ [v])) = v := by
  show ((H ++ (rest ++ [v])).drop H.length).getLast?.getD i = v
  rw [List.drop_left, List.getLast?_concat]
  rfl

/-- C3: when the batch returned by one `poll_events()` call is
`pre ++ [Closed] ++ post` with no `Closed` in `pre`, the due branch dispatches
exactly the events of `pre`, terminates (`break 'main`), dispatches nothing
from `post`, and emits no tick value for that batch (the tick sink history is
unchanged). -/
theorem C3_closed_short_circuit (tick_length now : Nat) (st : TickState)
    (pre post : List Event) (htl : 0 < tick_length) (hpre : Event.Closed ∉ pre) :
    dueStepChecked tick_length now (pre ++ Event.Closed :: post) st =
      some ⟨st.next_tick + ((now - st.next_tick) - (now - st.next_tick) % tick_length),
        List.foldl dispatch st.sinks pre, true⟩ ∧
    (List.foldl dispatch st.sinks pre).tick = st.sinks.tick := by
  have hne : tick_length ≠ 0 := Nat.pos_iff_ne_zero.mp htl
  have hdb := dispatchBatch_closed pre post st.sinks hpre
  constructor
  · exact dueStepChecked_break tick_length now _ st _ hne hdb
  · have h2 := dispatchBatch_tick (pre ++ Event.Closed :: post) st.sinks
    rw [hdb] at h2
    exact h2

/-- C3 witness: a batch holding a `Focused` event, then `Closed`, then a
`MouseWheel` event. -/
theorem C3_closed_short_circuit_witness :
    dueStepChecked 1000 5 ([Event.Focused true] ++ Event.Closed :: [Event.MouseWheel 2])
        ⟨5, SinkState.empty, false⟩ =
      some ⟨(⟨5, SinkState.empty, false⟩ : TickState).next_tick +
          ((5 - (⟨5, SinkState.empty, false⟩ : TickState).next_tick) -
            (5 - (⟨5, SinkState.empty, false⟩ : TickState).next_tick) % 1000),
        List.foldl dispatch (⟨5, SinkState.empty, false⟩ : TickState).sinks
          [Event.Focused true], true⟩ ∧
    (List.foldl dispatch (⟨5, SinkState.empty, false⟩ : TickState).sinks
        [Event.Focused true]).tick =
      (⟨5, SinkState.empty, false⟩ : TickState).sinks.tick :=
  C3_closed_short_circuit 1000 5 ⟨5, SinkState.empty, false⟩ [Event.Focused true]
    [Event.MouseWheel 2] (by decide) (by decide)

/-- C5: a single raw event causes exactly one write to exactly one sink, or
none: `dispatch` agrees with the spec's classification table (first
conjunct, which pins down both the target sink and the written value and
leaves every other sink untouched), the total write count grows by zero or
one (second conjunct), and a `KeyboardInput` event with an absent key code
writes nothing (third conjunct). -/
theorem C5_dispatch_single_write :
    (∀ (s : SinkState) (e : Event), dispatch s e = applySinkWrite s (classifySpec e)) ∧
    (∀ (s : SinkState) (e : Event),
      (dispatch s e).totalWrites = s.totalWrites ∨
        (dispatch s e).totalWrites = s.totalWrites + 1) ∧
    (∀ (s : SinkState) (state : ElementState) (scancode : Nat),
      dispatch s (Event.KeyboardInput state scancode none) = s) := by
  refine ⟨dispatch_matches_table, ?_, ?_⟩
  · intro s e
    rcases hc : classifySpec e with _ | w
    · left
      rw [dispatch_matches_table, hc]
      rfl
    · right
      rw [dispatch_matches_table, hc]
      exact totalWrites_applySinkWrite s w
  · intro s state scancode
    rfl

/-- C7: before any emission on the corresponding sink, the cells returned by
the accessors read their seed values: `cursor()` reads `(0,0)`, `wheel()`
reads `0`, `focus()` reads `true`, `position()` reads `(0,0)` and `size()`
reads `(0,0)`. -/
theorem C7_initial_seeds (l : GliumLoop)
    (h1 : l.sinks.mouse_motion = []) (h2 : l.sinks.mouse_wheel = [])
    (h3 : l.sinks.focus = []) (h4 : l.sinks.winpos = []) (h5 : l.sinks.winsize = []) :
    (GliumLoop.cursor l).now l.sinks.mouse_motion = (0, 0) ∧
    (GliumLoop.wheel l).now l.sinks.mouse_wheel = 0 ∧
    (GliumLoop.focus l).now l.sinks.focus = true ∧
    (GliumLoop.position l).now l.sinks.winpos = (0, 0) ∧
    (GliumLoop.size l).now l.sinks.winsize = (0, 0) := by
  refine ⟨?_, ?_, ?_, ?_, ?_⟩ <;>
    simp [GliumLoop.cursor, GliumLoop.wheel, GliumLoop.focus, GliumLoop.position,
      GliumLoop.size, CellHandle.now, h1, h2, h3, h4, h5]

/-- C7 witness: the freshly constructed loop. -/
theorem C7_initial_seeds_witness :
    (GliumLoop.cursor (GliumLoop.new 7)).now (GliumLoop.new 7).sinks.mouse_motion = (0, 0) ∧
    (GliumLoop.wheel (GliumLoop.new 7)).now (GliumLoop.new 7).sinks.mouse_wheel = 0 ∧
    (GliumLoop.focus (GliumLoop.new 7)).now (GliumLoop.new 7).sinks.focus = true ∧
    (GliumLoop.position (GliumLoop.new 7)).now (GliumLoop.new 7).sinks.winpos = (0, 0) ∧
    (GliumLoop.size (GliumLoop.new 7)).now (GliumLoop.new 7).sinks.winsize = (0, 0) :=
  C7_initial_seeds (GliumLoop.new 7) rfl rfl rfl rfl rfl

/-- C8: dispatching press of key `A` then release of key `A` appends exactly
the two matching `ButtonEvent`s, in order, to the button sink and nothing
else (first conjunct: the whole resulting state equals the input state with
only the button history extended); a button stream created beforehand
observes exactly those two events in order; every other sink history is
unchanged and the value of every derived cell is unchanged. -/
theorem C8_key_press_release (tl sc1 sc2 : Nat) (s : SinkState) :
    afterKeySequence s sc1 sc2 =
      { s with button := s.button ++
          [⟨Button.Keyboard VirtualKeyCode.A, ButtonState.Pressed⟩,
            ⟨Button.Keyboard VirtualKeyCode.A, ButtonState.Released⟩] } ∧
    (GliumLoop.buttons ⟨tl, s⟩).observations (afterKeySequence s sc1 sc2).button =
      [⟨Button.Keyboard VirtualKeyCode.A, ButtonState.Pressed⟩,
        ⟨Button.Keyboard VirtualKeyCode.A, ButtonState.Released⟩] ∧
    (afterKeySequence s sc1 sc2).tick = s.tick ∧
    (afterKeySequence s sc1 sc2).winpos = s.winpos ∧
    (afterKeySequence s sc1 sc2).winsize = s.winsize ∧
    (afterKeySequence s sc1 sc2).mouse_motion = s.mouse_motion ∧
    (afterKeySequence s sc1 sc2).mouse_wheel = s.mouse_wheel ∧
    (afterKeySequence s sc1 sc2).focus = s.focus ∧
    (afterKeySequence s sc1 sc2).char = s.char ∧
    (GliumLoop.cursor ⟨tl, s⟩).now (afterKeySequence s sc1 sc2).mouse_motion =
      (GliumLoop.cursor ⟨tl, s⟩).now s.mouse_motion ∧
    (GliumLoop.wheel ⟨tl, s⟩).now (afterKeySequence s sc1 sc2).mouse_wheel =
      (GliumLoop.wheel ⟨tl, s⟩).now s.mouse_wheel ∧
    (GliumLoop.focus ⟨tl, s⟩).now (afterKeySequence s sc1 sc2).focus =
      (GliumLoop.focus ⟨tl, s⟩).now s.focus ∧
    (GliumLoop.position ⟨tl, s⟩).now (afterKeySequence s sc1 sc2).winpos =
      (GliumLoop.position ⟨tl, s⟩).now s.winpos ∧
    (GliumLoop.size ⟨tl, s⟩).now (afterKeySequence s sc1 sc2).winsize =
      (GliumLoop.size ⟨tl, s⟩).now s.winsize := by
  have hmain : afterKeySequence s sc1 sc2 =
      { s with button := s.button ++
          [⟨Button.Keyboard VirtualKeyCode.A, ButtonState.Pressed⟩,
            ⟨Button.Keyboard VirtualKeyCode.A, ButtonState.Released⟩] } := by
    simp [afterKeySequence, dispatch, to_button_state, List.append_assoc]
  refine ⟨hmain, ?_, ?_, ?_, ?_, ?_, ?_, ?_, ?_, ?_, ?_, ?_, ?_, ?_⟩ <;>
    simp [hmain, GliumLoop.buttons, GliumLoop.cursor, GliumLoop.wheel, GliumLoop.focus,
      GliumLoop.position, GliumLoop.size, StreamHandle.observations, CellHandle.now,
      List.drop_left]

/-- C2 counterexample: the claim says a `size()` cell created after the
`Resized(w, h)` event was dispatched also reads `(w, h)`.  But a stream
observer attached after an emission never sees it: the cell created after
dispatching `Resized(5, 6)` reads its seed `(0, 0)`, not `(5, 6)`. -/
theorem C2_counterexample :
    (GliumLoop.size ⟨1, dispatch SinkState.empty (Event.Resized 5 6)⟩).now
        (dispatch SinkState.empty (Event.Resized 5 6)).winsize = (0, 0) ∧
    ((0, 0) : Nat × Nat) ≠ (5, 6) :=
  ⟨by decide, by decide⟩

/-- C2 (amended): after a `Resized(w, h)` raw event is dispatched, any
`size()` cell created no later than the dispatch reads `(w, h)`, and keeps
reading `(w, h)` as further events are dispatched until the next `Resized`
event; a cell created after the dispatch instead reads its seed `(0, 0)`
until the next emission (counterexample above). -/
theorem C2_size_follows_resize (l : GliumLoop) (s : SinkState) (w h : Nat)
    (evs : List Event)
    (hcreate : (GliumLoop.size l).createdAt ≤ s.winsize.length)
    (hnores : ∀ e ∈ evs, isResized e = false) :
    (GliumLoop.size l).now
      (List.foldl dispatch (dispatch s (Event.Resized w h)) evs).winsize = (w, h) := by
  rw [foldl_dispatch_winsize evs _ hnores]
  have hres : (dispatch s (Event.Resized w h)).winsize = s.winsize ++ [(w, h)] := rfl
  show (((dispatch s (Event.Resized w h)).winsize).drop
      (GliumLoop.size l).createdAt).getLast?.getD (GliumLoop.size l).init = (w, h)
  rw [hres, List.drop_append_of_le_length hcreate, List.getLast?_concat]
  rfl

/-- C2 witness: a cell created on the fresh loop, a `Resized(5, 6)` event,
and no further events. -/
theorem C2_size_follows_resize_witness :
    (GliumLoop.size (GliumLoop.new 1)).now
      (List.foldl dispatch (dispatch SinkState.empty (Event.Resized 5 6)) []).winsize =
      (5, 6) :=
  C2_size_follows_resize (GliumLoop.new 1) SinkState.empty 5 6 []
    (by decide) (by intro e he; cases he)

/-- C9: endpoint accessors are idempotent in the observational sense.  In
this embedding an accessor is a function of the loop, so two calls made at
the same point return equal handles outright; the conjuncts below state the
observational content for calls made at possibly different points, for every
accessor.  For each stream accessor (`ticks`, `buttons`, `characters`): a
handle from a call made when the history was `s.X`, and a handle from a later
call made after `mid` further emissions, both observe the subsequent
emissions `ext` as the final segment of their observation lists, in the same
order (the earlier handle observes `mid ++ ext`, the later one exactly
`ext`).  For each cell accessor (`position`, `size`, `cursor`, `wheel`,
`focus`): after any subsequent emissions ending in `v`, both handles read the
same value `v`. -/
theorem C9_accessor_idempotent (tl : Nat) (s : SinkState)
    (tmid text : List Nat)
    (bmid bext : List (ButtonEvent Button))
    (cmid cext : List Char)
    (pmid pext : List (Int × Int)) (pv : Int × Int)
    (wmid wext : List (Nat × Nat)) (wv : Nat × Nat)
    (mmid mext : List (Int × Int)) (mv : Int × Int)
    (hmid hext : List Int) (hv : Int)
    (fmid fext : List Bool) (fv : Bool) :
    ((GliumLoop.ticks ⟨tl, s⟩).observations (s.tick ++ tmid ++ text) = tmid ++ text ∧
      (GliumLoop.ticks ⟨tl, { s with tick := s.tick ++ tmid }⟩).observations
        (s.tick ++ tmid ++ text) = text) ∧
    ((GliumLoop.buttons ⟨tl, s⟩).observations (s.button ++ bmid ++ bext) = bmid ++ bext ∧
      (GliumLoop.buttons ⟨tl, { s with button := s.button ++ bmid }⟩).observations
        (s.button ++ bmid ++ bext) = bext) ∧
    ((GliumLoop.characters ⟨tl, s⟩).observations (s.char ++ cmid ++ cext) = cmid ++ cext ∧
      (GliumLoop.characters ⟨tl, { s with char := s.char ++ cmid }⟩).observations
        (s.char ++ cmid ++ cext) = cext) ∧
    ((GliumLoop.position ⟨tl, s⟩).now (s.winpos ++ pmid ++ (pext ++ [pv])) = pv ∧
      (GliumLoop.position ⟨tl, { s with winpos := s.winpos ++ pmid }⟩).now
        (s.winpos ++ pmid ++ (pext ++ [pv])) = pv) ∧
    ((GliumLoop.size ⟨tl, s⟩).now (s.winsize ++ wmid ++ (wext ++ [wv])) = wv ∧
      (GliumLoop.size ⟨tl, { s with winsize := s.winsize ++ wmid }⟩).now
        (s.winsize ++ wmid ++ (wext ++ [wv])) = wv) ∧
    ((GliumLoop.cursor ⟨tl, s⟩).now (s.mouse_motion ++ mmid ++ (mext ++ [mv])) = mv ∧
      (GliumLoop.cursor ⟨tl, { s with mouse_motion := s.mouse_motion ++ mmid }⟩).now
        (s.mouse_motion ++ mmid ++ (mext ++ [mv])) = mv) ∧
    ((GliumLoop.wheel ⟨tl, s⟩).now (s.mouse_wheel ++ hmid ++ (hext ++ [hv])) = hv ∧
      (GliumLoop.wheel ⟨tl, { s with mouse_wheel := s.mouse_wheel ++ hmid }⟩).now
        (s.mouse_wheel ++ hmid ++ (hext ++ [hv])) = hv) ∧
    ((GliumLoop.focus ⟨tl, s⟩).now (s.focus ++ fmid ++ (fext ++ [fv])) = fv ∧
      (GliumLoop.focus ⟨tl, { s with focus := s.focus ++ fmid }⟩).now
        (s.focus ++ fmid ++ (fext ++ [fv])) = fv) := by
  refine ⟨⟨?_, ?_⟩, ⟨?_, ?_⟩, ⟨?_, ?_⟩, ⟨?_, ?_⟩, ⟨?_, ?_⟩, ⟨?_, ?_⟩, ⟨?_, ?_⟩, ⟨?_, ?_⟩⟩
  · rw [List.append_assoc]
    exact observations_at_length s.tick (tmid ++ text)
  · exact observations_at_length (s.tick ++ tmid) text
  · rw [List.append_assoc]
    exact observations_at_length s.button (bmid ++ bext)
  · exact observations_at_length (s.button ++ bmid) bext
  · rw [List.append_assoc]
    exact observations_at_length s.char (cmid ++ cext)
  · exact observations_at_length (s.char ++ cmid) cext
  · rw [List.append_assoc, ← List.append_assoc pmid pext [pv]]
    exact now_at_length _ s.winpos (pmid ++ pext) pv
  · exact now_at_length _ (s.winpos ++ pmid) pext pv
  · rw [List.append_assoc, ← List.append_assoc wmid wext [wv]]
    exact now_at_length _ s.winsize (wmid ++ wext) wv
  · exact now_at_length _ (s.winsize ++ wmid) wext wv
  · rw [List.append_assoc, ← List.append_assoc mmid mext [mv]]
    exact now_at_length _ s.mouse_motion (mmid ++ mext) mv
  · exact now_at_length _ (s.mouse_motion ++ mmid) mext mv
  · rw [List.append_assoc, ← List.append_assoc hmid hext [hv]]
    exact now_at_length _ s.mouse_wheel (hmid ++ hext) hv
  · exact now_at_length _ (s.mouse_wheel ++ hmid) hext hv
  · rw [List.append_assoc, ← List.append_assoc fmid fext [fv]]
    exact now_at_length _ s.focus (fmid ++ fext) fv
  · exact now_at_length _ (s.focus ++ fmid) fext fv

end CarboxylWindow
